import Mathlib

/-!
Verification of the pomowise terminal pomodoro timer.

The development shallowly embeds the control layer of the program:
the session state machine (`src/timer.rs`), the animation clock and
theme rotation (`src/animation/mod.rs`, `src/animation/themes/mod.rs`)
and the terminal-size classification (`src/scaling.rs`).

Modelling conventions:
* `std::time::Instant` is modelled as a `Nat` timestamp in nanoseconds;
  every operation that reads the clock takes an explicit `now : Nat`.
  `Duration` values are `Nat` nanoseconds.
* Operations that can hit a `panic!`/`unreachable!` branch return
  `Option`, with `none` standing for the panic.
* The wall-clock-seeded random source of `ThemeType::random_except`
  is modelled by an explicit `seed : Nat` argument.
* `usize` wrapping addition is taken modulo `2 ^ 64`.
* `f64` session progress is modelled over `ℚ` (all inputs are integer
  nanosecond counts, so the real-number value is rational).
-/

namespace Pomowise

/-! ## Constants from `src/timer.rs` (durations in nanoseconds) -/

def WORK_DURATION : Nat := 25 * 60 * 1000000000

def SHORT_BREAK_DURATION : Nat := 5 * 60 * 1000000000

def LONG_BREAK_DURATION : Nat := 15 * 60 * 1000000000

def WORK_LAPS : Nat := 10

def SHORT_BREAK_LAPS : Nat := 3

/-! ## `TimerState` and `PomodoroTimer` from `src/timer.rs` -/

/-- `enum TimerState` of `src/timer.rs`. -/
inductive TimerState where
  | Idle : TimerState
  | Work (lap : Nat) : TimerState
  | ShortBreak (lap : Nat) : TimerState
  | LongBreak : TimerState
  | Paused (inner : TimerState) : TimerState
deriving DecidableEq, Repr

/-- `struct PomodoroTimer` of `src/timer.rs`; `last_tick : Option Nat`
models `Option<Instant>`. -/
structure PomodoroTimer where
  state : TimerState
  remaining : Nat
  cycle_position : Nat
  last_tick : Option Nat
deriving DecidableEq, Repr

namespace PomodoroTimer

/-- `PomodoroTimer::new`. -/
def new : PomodoroTimer :=
  { state := .Idle, remaining := 0, cycle_position := 0, last_tick := none }

/-- `PomodoroTimer::start`; sets every field, so the previous timer is unused. -/
def start (now : Nat) (_t : PomodoroTimer) : PomodoroTimer :=
  { state := .Work 1, remaining := WORK_DURATION, cycle_position := 0,
    last_tick := some now }

/-- `PomodoroTimer::toggle_pause`. -/
def toggle_pause (now : Nat) (t : PomodoroTimer) : PomodoroTimer :=
  match t.state with
  | .Paused inner => { t with state := inner, last_tick := some now }
  | .Idle => t
  | s => { t with state := .Paused s, last_tick := none }

/-- The `match &self.state { Paused(inner) => inner, other => other }`
one-level unwrap used by `reset_current_session` and `advance_state`. -/
def unwrap_paused : TimerState → TimerState
  | .Paused inner => inner
  | other => other

/-- `PomodoroTimer::reset_current_session`. -/
def reset_current_session (now : Nat) (t : PomodoroTimer) : PomodoroTimer :=
  match unwrap_paused t.state with
  | .Work _ =>
      { t with state := .Work 1, remaining := WORK_DURATION, last_tick := some now }
  | .ShortBreak _ =>
      { t with state := .ShortBreak 1, remaining := SHORT_BREAK_DURATION,
               last_tick := some now }
  | .LongBreak =>
      { t with state := .LongBreak, remaining := LONG_BREAK_DURATION,
               last_tick := some now }
  | _ => t

/-- `PomodoroTimer::advance_state`; `none` models the `unreachable!()`
panic taken when the paused inner state is itself `Paused`. -/
def advance_state (now : Nat) (t : PomodoroTimer) : Option PomodoroTimer :=
  match unwrap_paused t.state with
  | .Work _ =>
      let cp := t.cycle_position + 1
      if cp ≥ 4 then
        some { t with state := .LongBreak, remaining := LONG_BREAK_DURATION,
                      cycle_position := cp, last_tick := some now }
      else
        some { t with state := .ShortBreak 1, remaining := SHORT_BREAK_DURATION,
                      cycle_position := cp, last_tick := some now }
  | .ShortBreak _ =>
      some { t with state := .Work 1, remaining := WORK_DURATION,
                    last_tick := some now }
  | .LongBreak =>
      some { t with state := .Work 1, remaining := WORK_DURATION,
                    cycle_position := 0, last_tick := some now }
  | .Idle => some (start now t)
  | .Paused _ => none

/-- `PomodoroTimer::tick`; `elapsed = now - last` models `last.elapsed()`. -/
def tick (now : Nat) (t : PomodoroTimer) : Option PomodoroTimer :=
  match t.state with
  | .Idle => some t
  | .Paused _ => some t
  | _ =>
    match t.last_tick with
    | none => some t
    | some last =>
        let elapsed := now - last
        if elapsed ≥ t.remaining then
          advance_state now { t with remaining := 0, last_tick := some now }
        else
          some { t with remaining := t.remaining - elapsed, last_tick := some now }

/-- A sequence of `tick` calls at the given clock readings. -/
def tick_seq : List Nat → PomodoroTimer → Option PomodoroTimer
  | [], t => some t
  | n :: ns, t => (tick n t).bind (tick_seq ns)

/-- `PomodoroTimer::is_paused`. -/
def is_paused (t : PomodoroTimer) : Bool :=
  match t.state with
  | .Paused _ => true
  | _ => false

/-- The `total` computation inside `PomodoroTimer::session_progress`:
`none` marks the early-return-0 branches (Idle, and a paused base phase
with no duration). -/
def phase_total : TimerState → Option Nat
  | .Work _ => some WORK_DURATION
  | .ShortBreak _ => some SHORT_BREAK_DURATION
  | .LongBreak => some LONG_BREAK_DURATION
  | .Paused inner =>
      match inner with
      | .Work _ => some WORK_DURATION
      | .ShortBreak _ => some SHORT_BREAK_DURATION
      | .LongBreak => some LONG_BREAK_DURATION
      | _ => none
  | .Idle => none

/-- `PomodoroTimer::session_progress`, over `ℚ`. -/
def session_progress (t : PomodoroTimer) : ℚ :=
  match phase_total t.state with
  | none => 0
  | some total => 1 - (t.remaining : ℚ) / (total : ℚ)

end PomodoroTimer

/-! ## Themes from `src/animation/themes/mod.rs` -/

/-- `enum ThemeType`. -/
inductive ThemeType where
  | Matrix | Fire | Starfield | Plasma | RainDrops | RadioWaves
  | SpinningShapes | Fireworks | Aurora | Ocean | DNA | Bubbles
  | Electric | Snowfall | Nature | Geometric | Glitch | Minimal
  | Seasonal | Landscape | Claude | GitHub | Medieval | Synthwave
deriving DecidableEq, Repr, Fintype

namespace ThemeType

/-- `ThemeType::all`. -/
def all : List ThemeType :=
  [ .Matrix, .Fire, .Starfield, .Plasma, .RainDrops, .RadioWaves,
    .SpinningShapes, .Fireworks, .Aurora, .Ocean, .DNA, .Bubbles,
    .Electric, .Snowfall, .Nature, .Geometric, .Glitch, .Minimal,
    .Seasonal, .Landscape, .Claude, .GitHub, .Medieval, .Synthwave ]

/-- The `while themes[idx] == current` probe loop of
`ThemeType::random_except`, with fuel bounding the number of probes
(the source loop stops at the first non-equal entry; fuel
`all.length` is enough because the entries of `all` are distinct). -/
def probe : Nat → Nat → ThemeType → ThemeType
  | 0, idx, _ => all.getD idx .Matrix
  | fuel + 1, idx, current =>
      let th := all.getD idx .Matrix
      if th = current then probe fuel ((idx + 1) % all.length) current else th

/-- `ThemeType::random_except`; `seed` models the nanosecond wall-clock
seed `SystemTime::now() ... as_nanos() as usize`. -/
def random_except (seed : Nat) (current : ThemeType) : ThemeType :=
  probe all.length (seed % all.length) current

/-- `ThemeType::random`. -/
def random (seed : Nat) : ThemeType :=
  all.getD (seed % all.length) .Matrix

end ThemeType

/-! ## Digit fonts from `src/animation/digit_fonts.rs` -/

/-- `enum DigitFont`. -/
inductive DigitFont where
  | Classic | Block3D | Outlined | Isometric | LCD
deriving DecidableEq, Repr

/-! ## `AnimationEngine` from `src/animation/mod.rs` -/

/-- `THEME_ROTATION_SECS = 150`, in nanoseconds. -/
def THEME_ROTATION_NS : Nat := 150 * 1000000000

/-- `usize` arithmetic wraps modulo `2 ^ 64`. -/
def USIZE_MOD : Nat := 2 ^ 64

/-- `struct AnimationEngine` of `src/animation/mod.rs`; timestamps are
`Nat` nanoseconds, `fps : Nat` models the `u8` field. -/
structure AnimationEngine where
  frame_index : Nat
  current_theme : ThemeType
  current_font : DigitFont
  last_frame_time : Nat
  last_theme_change : Nat
  fps : Nat
deriving DecidableEq, Repr

namespace AnimationEngine

/-- `AnimationEngine::new`; `seed` models the wall-clock seed used by
`ThemeType::random()`, `now` the two `Instant::now()` reads. -/
def new (now seed : Nat) : AnimationEngine :=
  { frame_index := 0, current_theme := ThemeType.random seed,
    current_font := .Block3D, last_frame_time := now,
    last_theme_change := now, fps := 10 }

/-- `AnimationEngine::reset`. -/
def reset (now : Nat) (e : AnimationEngine) : AnimationEngine :=
  { e with frame_index := 0, last_frame_time := now }

/-- `matches!(state, TimerState::ShortBreak { .. })`. -/
def is_short_break : TimerState → Bool
  | .ShortBreak _ => true
  | _ => false

/-- `AnimationEngine::should_rotate_theme`. -/
def should_rotate_theme (now : Nat) (e : AnimationEngine) : Bool :=
  now - e.last_theme_change ≥ THEME_ROTATION_NS

/-- `AnimationEngine::rotate_theme`. -/
def rotate_theme (now seed : Nat) (e : AnimationEngine) : AnimationEngine :=
  { e with current_theme := ThemeType.random_except seed e.current_theme,
           last_theme_change := now }

/-- `AnimationEngine::set_theme`. -/
def set_theme (now : Nat) (theme : ThemeType) (e : AnimationEngine) : AnimationEngine :=
  { e with current_theme := theme, last_theme_change := now }

/-- `AnimationEngine::tick`; `frame_duration = 1000 / fps` milliseconds,
converted to nanoseconds. -/
def tick (now seed : Nat) (state : TimerState) (auto_rotate : Bool)
    (e : AnimationEngine) : AnimationEngine :=
  let frame_duration := 1000 / e.fps * 1000000
  let e1 :=
    if now - e.last_frame_time ≥ frame_duration then
      { e with frame_index := (e.frame_index + 1) % USIZE_MOD,
               last_frame_time := now,
               fps := if is_short_break state then 5 else 10 }
    else e
  if auto_rotate ∧ should_rotate_theme now e1 then
    rotate_theme now seed e1
  else e1

end AnimationEngine

/-! ## Terminal size classification from `src/scaling.rs` -/

def MIN_WIDTH : Nat := 40

def MIN_HEIGHT : Nat := 15

/-- `enum TerminalSize`. -/
inductive TerminalSize where
  | TooSmall | Compact | Medium | Large | ExtraLarge
deriving DecidableEq, Repr

namespace TerminalSize

/-- `TerminalSize::from_dimensions` (width and height are `u16`; no
arithmetic is involved, so `Nat` models them faithfully). -/
def from_dimensions (width height : Nat) : TerminalSize :=
  if width < MIN_WIDTH ∨ height < MIN_HEIGHT then .TooSmall
  else if width < 60 ∨ height < 20 then .Compact
  else if width < 100 ∨ height < 30 then .Medium
  else if width < 150 ∨ height < 45 then .Large
  else .ExtraLarge

end TerminalSize

/-! ## Reachable timer states and their invariant -/

namespace PomodoroTimer

/-- The state holds no `Paused(Paused(_))`; outside of this set
`advance_state` would take its `unreachable!()` branch. -/
def no_nested_paused : TimerState → Prop
  | .Paused (.Paused _) => False
  | _ => True

/-- Timer states reachable from `new` through the public operations,
with arbitrary clock readings. -/
inductive Reachable : PomodoroTimer → Prop where
  | init : Reachable PomodoroTimer.new
  | step_start (now : Nat) {t : PomodoroTimer} :
      Reachable t → Reachable (start now t)
  | step_pause (now : Nat) {t : PomodoroTimer} :
      Reachable t → Reachable (toggle_pause now t)
  | step_reset (now : Nat) {t : PomodoroTimer} :
      Reachable t → Reachable (reset_current_session now t)
  | step_advance (now : Nat) {t t' : PomodoroTimer} :
      Reachable t → advance_state now t = some t' → Reachable t'
  | step_tick (now : Nat) {t t' : PomodoroTimer} :
      Reachable t → tick now t = some t' → Reachable t'

/-- Inductive invariant: no nested pause, and `remaining` never exceeds
the full duration of the (possibly paused) phase. -/
def Inv (t : PomodoroTimer) : Prop :=
  no_nested_paused t.state ∧ ∀ d, phase_total t.state = some d → t.remaining ≤ d

lemma inv_new : Inv new := by
  constructor
  · trivial
  · intro d hd; simp [new, phase_total] at hd

lemma inv_start (now : Nat) (t : PomodoroTimer) : Inv (start now t) := by
  constructor
  · trivial
  · intro d hd
    simp [start, phase_total] at hd ⊢
    omega

lemma inv_toggle_pause (now : Nat) (t : PomodoroTimer) (h : Inv t) :
    Inv (toggle_pause now t) := by
  obtain ⟨h1, h2⟩ := h
  cases hs : t.state with
  | Idle => simpa [toggle_pause, hs] using ⟨h1, h2⟩
  | Work lap =>
      refine ⟨by simp [toggle_pause, hs, no_nested_paused], ?_⟩
      intro d hd
      simp [toggle_pause, hs, phase_total] at hd ⊢
      exact hd ▸ h2 d (by simp [hs, phase_total, hd])
  | ShortBreak lap =>
      refine ⟨by simp [toggle_pause, hs, no_nested_paused], ?_⟩
      intro d hd
      simp [toggle_pause, hs, phase_total] at hd ⊢
      exact hd ▸ h2 d (by simp [hs, phase_total, hd])
  | LongBreak =>
      refine ⟨by simp [toggle_pause, hs, no_nested_paused], ?_⟩
      intro d hd
      simp [toggle_pause, hs, phase_total] at hd ⊢
      exact hd ▸ h2 d (by simp [hs, phase_total, hd])
  | Paused inner =>
      cases inner with
      | Paused inner2 => exact absurd h1 (by simp [hs, no_nested_paused])
      | Idle =>
          refine ⟨by simp [toggle_pause, hs, no_nested_paused], ?_⟩
          intro d hd
          simp [toggle_pause, hs, phase_total] at hd
      | Work lap =>
          refine ⟨by simp [toggle_pause, hs, no_nested_paused], ?_⟩
          intro d hd
          simp [toggle_pause, hs, phase_total] at hd ⊢
          exact hd ▸ h2 d (by simp [hs, phase_total, hd])
      | ShortBreak lap =>
          refine ⟨by simp [toggle_pause, hs, no_nested_paused], ?_⟩
          intro d hd
          simp [toggle_pause, hs, phase_total] at hd ⊢
          exact hd ▸ h2 d (by simp [hs, phase_total, hd])
      | LongBreak =>
          refine ⟨by simp [toggle_pause, hs, no_nested_paused], ?_⟩
          intro d hd
          simp [toggle_pause, hs, phase_total] at hd ⊢
          exact hd ▸ h2 d (by simp [hs, phase_total, hd])

lemma inv_reset (now : Nat) (t : PomodoroTimer) (h : Inv t) :
    Inv (reset_current_session now t) := by
  obtain ⟨h1, h2⟩ := h
  unfold reset_current_session
  cases hu : unwrap_paused t.state with
  | Work lap =>
      exact ⟨by trivial, by intro d hd; simp [phase_total] at hd ⊢; omega⟩
  | ShortBreak lap =>
      exact ⟨by trivial, by intro d hd; simp [phase_total] at hd ⊢; omega⟩
  | LongBreak =>
      exact ⟨by trivial, by intro d hd; simp [phase_total] at hd ⊢; omega⟩
  | Idle => exact ⟨h1, h2⟩
  | Paused inner => exact ⟨h1, h2⟩

lemma inv_advance (now : Nat) (t t' : PomodoroTimer)
    (h : advance_state now t = some t') : Inv t' := by
  unfold advance_state at h
  cases hu : unwrap_paused t.state with
  | Work lap =>
      rw [hu] at h
      by_cases hc : t.cycle_position + 1 ≥ 4
      · simp only [hc, if_pos] at h
        cases h
        exact ⟨by trivial, by intro d hd; simp [phase_total] at hd ⊢; omega⟩
      · simp only [hc, if_neg, not_false_iff] at h
        cases h
        exact ⟨by trivial, by intro d hd; simp [phase_total] at hd ⊢; omega⟩
  | ShortBreak lap =>
      rw [hu] at h
      cases h
      exact ⟨by trivial, by intro d hd; simp [phase_total] at hd ⊢; omega⟩
  | LongBreak =>
      rw [hu] at h
      cases h
      exact ⟨by trivial, by intro d hd; simp [phase_total] at hd ⊢; omega⟩
  | Idle =>
      rw [hu] at h
      cases h
      exact inv_start now t
  | Paused inner =>
      rw [hu] at h
      cases h

lemma inv_tick (now : Nat) (t t' : PomodoroTimer) (h : Inv t)
    (ht : tick now t = some t') : Inv t' := by
  obtain ⟨h1, h2⟩ := h
  unfold tick at ht
  cases hs : t.state with
  | Idle =>
      rw [hs] at ht; cases ht; exact ⟨h1, h2⟩
  | Paused inner =>
      rw [hs] at ht; cases ht; exact ⟨h1, h2⟩
  | Work lap =>
      rw [hs] at ht
      cases hl : t.last_tick with
      | none => rw [hl] at ht; cases ht; exact ⟨h1, h2⟩
      | some last =>
          rw [hl] at ht
          by_cases hc : now - last ≥ t.remaining
          · simp only [hc, if_pos] at ht
            exact inv_advance now _ t' ht
          · simp only [hc, if_neg, not_false_iff] at ht
            cases ht
            refine ⟨by simpa [hs] using h1, ?_⟩
            intro d hd
            simp only at hd ⊢
            have := h2 d (by simpa [hs] using hd)
            omega
  | ShortBreak lap =>
      rw [hs] at ht
      cases hl : t.last_tick with
      | none => rw [hl] at ht; cases ht; exact ⟨h1, h2⟩
      | some last =>
          rw [hl] at ht
          by_cases hc : now - last ≥ t.remaining
          · simp only [hc, if_pos] at ht
            exact inv_advance now _ t' ht
          · simp only [hc, if_neg, not_false_iff] at ht
            cases ht
            refine ⟨by simpa [hs] using h1, ?_⟩
            intro d hd
            simp only at hd ⊢
            have := h2 d (by simpa [hs] using hd)
            omega
  | LongBreak =>
      rw [hs] at ht
      cases hl : t.last_tick with
      | none => rw [hl] at ht; cases ht; exact ⟨h1, h2⟩
      | some last =>
          rw [hl] at ht
          by_cases hc : now - last ≥ t.remaining
          · simp only [hc, if_pos] at ht
            exact inv_advance now _ t' ht
          · simp only [hc, if_neg, not_false_iff] at ht
            cases ht
            refine ⟨by simpa [hs] using h1, ?_⟩
            intro d hd
            simp only at hd ⊢
            have := h2 d (by simpa [hs] using hd)
            omega

/-- Every reachable timer state satisfies the invariant. -/
lemma reachable_inv {t : PomodoroTimer} (h : Reachable t) : Inv t := by
  induction h with
  | init => exact inv_new
  | step_start now _ _ => exact inv_start now _
  | step_pause now _ ih => exact inv_toggle_pause now _ ih
  | step_reset now _ ih => exact inv_reset now _ ih
  | step_advance now _ ha _ => exact inv_advance now _ _ ha
  | step_tick now _ ha ih => exact inv_tick now _ _ ih ha

end PomodoroTimer

/-! ## Helper lemmas about the timer operations -/

namespace PomodoroTimer

lemma tick_of_paused (now : Nat) (t : PomodoroTimer) (s : TimerState)
    (h : t.state = .Paused s) : tick now t = some t := by
  simp [tick, h]

lemma tick_seq_of_paused (nows : List Nat) (t : PomodoroTimer) (s : TimerState)
    (h : t.state = .Paused s) : tick_seq nows t = some t := by
  induction nows with
  | nil => rfl
  | cons n ns ih => simp [tick_seq, tick_of_paused n t s h, ih]

lemma advance_state_isSome (now : Nat) (t : PomodoroTimer)
    (h : no_nested_paused t.state) : (advance_state now t).isSome := by
  unfold advance_state
  cases hs : t.state with
  | Idle => simp [unwrap_paused, hs]
  | Work lap =>
      simp only [unwrap_paused, hs]
      split <;> rfl
  | ShortBreak lap => simp [unwrap_paused, hs]
  | LongBreak => simp [unwrap_paused, hs]
  | Paused inner =>
      rw [hs] at h
      cases inner with
      | Paused i2 => exact absurd h (by simp [no_nested_paused])
      | Idle => simp [unwrap_paused, hs]
      | Work lap =>
          simp only [unwrap_paused, hs]
          split <;> rfl
      | ShortBreak lap => simp [unwrap_paused, hs]
      | LongBreak => simp [unwrap_paused, hs]

lemma tick_isSome (now : Nat) (t : PomodoroTimer) : (tick now t).isSome := by
  unfold tick
  cases hs : t.state with
  | Idle => rfl
  | Paused inner => rfl
  | Work lap =>
      cases hl : t.last_tick with
      | none => rfl
      | some last =>
          simp only
          split
          · exact advance_state_isSome now _ (by simp [hs, no_nested_paused])
          · rfl
  | ShortBreak lap =>
      cases hl : t.last_tick with
      | none => rfl
      | some last =>
          simp only
          split
          · exact advance_state_isSome now _ (by simp [hs, no_nested_paused])
          · rfl
  | LongBreak =>
      cases hl : t.last_tick with
      | none => rfl
      | some last =>
          simp only
          split
          · exact advance_state_isSome now _ (by simp [hs, no_nested_paused])
          · rfl

lemma phase_total_mem (s : TimerState) (d : Nat) (h : phase_total s = some d) :
    d = WORK_DURATION ∨ d = SHORT_BREAK_DURATION ∨ d = LONG_BREAK_DURATION := by
  cases s with
  | Idle => simp [phase_total] at h
  | Work lap => simp [phase_total] at h; omega
  | ShortBreak lap => simp [phase_total] at h; omega
  | LongBreak => simp [phase_total] at h; omega
  | Paused inner =>
      cases inner with
      | Idle => simp [phase_total] at h
      | Work lap => simp [phase_total] at h; omega
      | ShortBreak lap => simp [phase_total] at h; omega
      | LongBreak => simp [phase_total] at h; omega
      | Paused i2 => simp [phase_total] at h

lemma phase_total_pos (s : TimerState) (d : Nat) (h : phase_total s = some d) :
    0 < d := by
  rcases phase_total_mem s d h with h1 | h1 | h1 <;>
    simp [h1, WORK_DURATION, SHORT_BREAK_DURATION, LONG_BREAK_DURATION]

end PomodoroTimer

/-! ## Helper lemmas about theme selection -/

lemma random_except_ne (seed : Nat) (c : ThemeType) :
    ThemeType.random_except seed c ≠ c := by
  have h24 : ThemeType.all.length = 24 := rfl
  have hlt : seed % ThemeType.all.length < 24 := by
    rw [h24]; exact Nat.mod_lt _ (by norm_num)
  have key : ∀ i : Fin 24, ∀ c : ThemeType, ThemeType.probe 24 i.val c ≠ c := by
    decide
  simpa [ThemeType.random_except, h24] using key ⟨_, hlt⟩ c

/-! ## Claim theorems -/

/-- C6: for the program's theme set (24 themes, hence size ≥ 2),
`rotate_theme()` always sets `current_theme` to a theme different from
the one currently active, and resets `last_theme_change` to the current
instant, for every wall-clock seed. -/
theorem rotate_theme_changes_theme (e : AnimationEngine) (now seed : Nat) :
    (AnimationEngine.rotate_theme now seed e).current_theme ≠ e.current_theme ∧
    (AnimationEngine.rotate_theme now seed e).last_theme_change = now :=
  ⟨random_except_ne seed e.current_theme, rfl⟩

/-- C7: one call to `AnimationEngine::tick` either leaves `frame_index`
unchanged (when less than `1000 / fps` milliseconds have elapsed since
`last_frame_time`) or advances it by exactly one modulo `2 ^ 64` (when
at least that much time has elapsed) — never more, regardless of the
elapsed real time. -/
theorem animation_tick_frame_coalescing (e : AnimationEngine) (now seed : Nat)
    (st : TimerState) (ar : Bool) :
    (now - e.last_frame_time < 1000 / e.fps * 1000000 ∧
      (AnimationEngine.tick now seed st ar e).frame_index = e.frame_index) ∨
    (now - e.last_frame_time ≥ 1000 / e.fps * 1000000 ∧
      (AnimationEngine.tick now seed st ar e).frame_index =
        (e.frame_index + 1) % USIZE_MOD) := by
  by_cases h : now - e.last_frame_time ≥ 1000 / e.fps * 1000000
  · right
    refine ⟨h, ?_⟩
    simp only [AnimationEngine.tick, h, if_pos]
    split_ifs <;> rfl
  · left
    refine ⟨not_le.mp h, ?_⟩
    simp only [AnimationEngine.tick, h, if_neg, not_false_iff]
    split_ifs <;> rfl

/-- C8 (amended): `fps` is recomputed from the session phase only on
calls where the frame advances; on a call where less than
`1000 / fps` ms have elapsed, `fps` is left unchanged, and on a call
where the frame advances it becomes 5 exactly when the session phase is
`ShortBreak` and 10 otherwise. -/
theorem animation_tick_fps_update (e : AnimationEngine) (now seed : Nat)
    (st : TimerState) (ar : Bool) :
    (now - e.last_frame_time < 1000 / e.fps * 1000000 ∧
      (AnimationEngine.tick now seed st ar e).fps = e.fps) ∨
    (now - e.last_frame_time ≥ 1000 / e.fps * 1000000 ∧
      (AnimationEngine.tick now seed st ar e).fps =
        (if AnimationEngine.is_short_break st then 5 else 10)) := by
  by_cases h : now - e.last_frame_time ≥ 1000 / e.fps * 1000000
  · right
    refine ⟨h, ?_⟩
    simp only [AnimationEngine.tick, h, if_pos]
    split_ifs <;> rfl
  · left
    refine ⟨not_le.mp h, ?_⟩
    simp only [AnimationEngine.tick, h, if_neg, not_false_iff]
    split_ifs <;> rfl

/-- C8 counterexample: a frame-advancing tick during `ShortBreak` sets
`fps := 5`; a following tick 50 ms later with session phase `Work` does
not advance the frame (50 ms < 200 ms) and leaves `fps = 5`, so after
that call `fps` does not equal the value derived from the session phase
(which would be 10): `fps` is not recomputed on every call. -/
theorem animation_tick_fps_not_recomputed_every_call :
    (AnimationEngine.tick 150000000 0 (.Work 1) false
      (AnimationEngine.tick 100000000 0 (.ShortBreak 1) false
        { frame_index := 0, current_theme := .Matrix, current_font := .Block3D,
          last_frame_time := 0, last_theme_change := 0, fps := 10 })).fps ≠
    (if AnimationEngine.is_short_break (.Work 1) then 5 else 10) := by
  decide

/-- C9: `TerminalSize::from_dimensions` is a total function of width and
height; it returns `TooSmall` exactly when `width < 40` or `height < 15`,
buckets the rest into `Compact`/`Medium`/`Large`/`ExtraLarge` by the
ascending width/height threshold pairs (60, 20), (100, 30), (150, 45),
and each pair exactly at a boundary maps to the higher category. -/
theorem from_dimensions_classification (w h : Nat) :
    (TerminalSize.from_dimensions w h = .TooSmall ↔ (w < 40 ∨ h < 15)) ∧
    (TerminalSize.from_dimensions w h = .Compact ↔
      (40 ≤ w ∧ 15 ≤ h ∧ (w < 60 ∨ h < 20))) ∧
    (TerminalSize.from_dimensions w h = .Medium ↔
      (60 ≤ w ∧ 20 ≤ h ∧ (w < 100 ∨ h < 30))) ∧
    (TerminalSize.from_dimensions w h = .Large ↔
      (100 ≤ w ∧ 30 ≤ h ∧ (w < 150 ∨ h < 45))) ∧
    (TerminalSize.from_dimensions w h = .ExtraLarge ↔ (150 ≤ w ∧ 45 ≤ h)) ∧
    TerminalSize.from_dimensions 60 20 = .Medium ∧
    TerminalSize.from_dimensions 100 30 = .Large ∧
    TerminalSize.from_dimensions 150 45 = .ExtraLarge := by
  refine ⟨?_, ?_, ?_, ?_, ?_, by decide, by decide, by decide⟩ <;>
      simp only [TerminalSize.from_dimensions, MIN_WIDTH, MIN_HEIGHT] <;>
      split_ifs <;> (try simp_all) <;> omega

/-- C1 counterexample: from `Work{lap = 1}` with `1 < WORK_LAPS = 10`,
`advance_state()` yields `ShortBreak{1}` (a break), not `Work{2}`:
`advance_state` has no lap-incrementing branch and a Work phase always
moves to a break, whatever its lap. -/
theorem advance_state_work_lap_not_incremented :
    1 < WORK_LAPS ∧
    PomodoroTimer.advance_state 0
        { state := .Work 1, remaining := WORK_DURATION, cycle_position := 0,
          last_tick := some 0 } =
      some { state := .ShortBreak 1, remaining := SHORT_BREAK_DURATION,
             cycle_position := 1, last_tick := some 0 } ∧
    TimerState.ShortBreak 1 ≠ TimerState.Work 2 := by
  refine ⟨by norm_num [WORK_LAPS], rfl, by decide⟩

/-- C1 (amended): `advance_state()` on any `Work{lap}` state — for every
lap, not only `lap = WORK_LAPS` — increments `cycle_position` and moves
to a break (`LongBreak` when the new `cycle_position ≥ 4`, else
`ShortBreak{1}` with the short-break duration), and on any
`ShortBreak{lap}` state — for every lap — moves to `Work{1}` with the
full work duration; laps are never incremented by `advance_state`. -/
theorem advance_state_work_always_breaks (t : PomodoroTimer) (now lap : Nat) :
    (t.state = .Work lap →
      PomodoroTimer.advance_state now t =
        some (if t.cycle_position + 1 ≥ 4 then
                { t with state := .LongBreak, remaining := LONG_BREAK_DURATION,
                         cycle_position := t.cycle_position + 1,
                         last_tick := some now }
              else
                { t with state := .ShortBreak 1,
                         remaining := SHORT_BREAK_DURATION,
                         cycle_position := t.cycle_position + 1,
                         last_tick := some now })) ∧
    (t.state = .ShortBreak lap →
      PomodoroTimer.advance_state now t =
        some { t with state := .Work 1, remaining := WORK_DURATION,
                      last_tick := some now }) := by
  constructor
  · intro hs
    simp only [PomodoroTimer.advance_state, PomodoroTimer.unwrap_paused, hs]
    split_ifs <;> rfl
  · intro hs
    simp only [PomodoroTimer.advance_state, PomodoroTimer.unwrap_paused, hs]

/-- C1 (amended) witness at `Work{1}` with `cycle_position = 0`. -/
theorem advance_state_work_always_breaks_witness :
    PomodoroTimer.advance_state 0
        { state := .Work 1, remaining := 0, cycle_position := 0, last_tick := none } =
      some { state := .ShortBreak 1, remaining := SHORT_BREAK_DURATION,
             cycle_position := 1, last_tick := some 0 } := by
  have h := (advance_state_work_always_breaks
    { state := .Work 1, remaining := 0, cycle_position := 0, last_tick := none }
    0 1).1 rfl
  rwa [if_neg (by norm_num)] at h

/-- C2: from `start()` (`Work{1}`, `cycle_position = 0`), the eight
successive `advance_state()` calls produce: `ShortBreak` after each of the
first three Work completions (with `cycle_position` incremented to 1, 2, 3),
`LongBreak` after the fourth Work completion (`cycle_position = 4`), and —
on completing `LongBreak` — `Work{1}` with the full work duration and
`cycle_position` reset to 0; this holds for any clock readings. -/
theorem four_work_phases_then_long_break (a b c d e f g h i : Nat) :
    PomodoroTimer.start a PomodoroTimer.new =
      { state := .Work 1, remaining := WORK_DURATION, cycle_position := 0,
        last_tick := some a } ∧
    PomodoroTimer.advance_state b
        { state := .Work 1, remaining := WORK_DURATION, cycle_position := 0,
          last_tick := some a } =
      some { state := .ShortBreak 1, remaining := SHORT_BREAK_DURATION,
             cycle_position := 1, last_tick := some b } ∧
    PomodoroTimer.advance_state c
        { state := .ShortBreak 1, remaining := SHORT_BREAK_DURATION,
          cycle_position := 1, last_tick := some b } =
      some { state := .Work 1, remaining := WORK_DURATION, cycle_position := 1,
             last_tick := some c } ∧
    PomodoroTimer.advance_state d
        { state := .Work 1, remaining := WORK_DURATION, cycle_position := 1,
          last_tick := some c } =
      some { state := .ShortBreak 1, remaining := SHORT_BREAK_DURATION,
             cycle_position := 2, last_tick := some d } ∧
    PomodoroTimer.advance_state e
        { state := .ShortBreak 1, remaining := SHORT_BREAK_DURATION,
          cycle_position := 2, last_tick := some d } =
      some { state := .Work 1, remaining := WORK_DURATION, cycle_position := 2,
             last_tick := some e } ∧
    PomodoroTimer.advance_state f
        { state := .Work 1, remaining := WORK_DURATION, cycle_position := 2,
          last_tick := some e } =
      some { state := .ShortBreak 1, remaining := SHORT_BREAK_DURATION,
             cycle_position := 3, last_tick := some f } ∧
    PomodoroTimer.advance_state g
        { state := .ShortBreak 1, remaining := SHORT_BREAK_DURATION,
          cycle_position := 3, last_tick := some f } =
      some { state := .Work 1, remaining := WORK_DURATION, cycle_position := 3,
             last_tick := some g } ∧
    PomodoroTimer.advance_state h
        { state := .Work 1, remaining := WORK_DURATION, cycle_position := 3,
          last_tick := some g } =
      some { state := .LongBreak, remaining := LONG_BREAK_DURATION,
             cycle_position := 4, last_tick := some h } ∧
    PomodoroTimer.advance_state i
        { state := .LongBreak, remaining := LONG_BREAK_DURATION,
          cycle_position := 4, last_tick := some h } =
      some { state := .Work 1, remaining := WORK_DURATION, cycle_position := 0,
             last_tick := some i } :=
  ⟨rfl, rfl, rfl, rfl, rfl, rfl, rfl, rfl, rfl⟩

/-- C3: pausing a running (non-Idle, non-Paused) timer wraps the phase in
`Paused` and clears `last_tick`; any sequence of `tick()` calls at
arbitrary later instants leaves the timer (hence `remaining`) exactly
unchanged; a second `toggle_pause()` restores the wrapped phase, re-arms
`last_tick`, and `remaining` still equals its value at the moment of
pausing. -/
theorem pause_freezes_remaining (t : PomodoroTimer) (now nowR : Nat)
    (nows : List Nat) (h1 : t.state ≠ .Idle) (h2 : ∀ s, t.state ≠ .Paused s) :
    (PomodoroTimer.toggle_pause now t).state = .Paused t.state ∧
    (PomodoroTimer.toggle_pause now t).remaining = t.remaining ∧
    (PomodoroTimer.toggle_pause now t).last_tick = none ∧
    PomodoroTimer.tick_seq nows (PomodoroTimer.toggle_pause now t) =
      some (PomodoroTimer.toggle_pause now t) ∧
    (PomodoroTimer.toggle_pause nowR (PomodoroTimer.toggle_pause now t)).state
      = t.state ∧
    (PomodoroTimer.toggle_pause nowR (PomodoroTimer.toggle_pause now t)).remaining
      = t.remaining ∧
    (PomodoroTimer.toggle_pause nowR (PomodoroTimer.toggle_pause now t)).last_tick
      = some nowR := by
  cases hs : t.state with
  | Idle => exact absurd hs h1
  | Paused s => exact absurd hs (h2 s)
  | Work lap =>
      have hp : (PomodoroTimer.toggle_pause now t).state = .Paused (.Work lap) := by
        simp [PomodoroTimer.toggle_pause, hs]
      exact ⟨hp, by simp [PomodoroTimer.toggle_pause, hs],
        by simp [PomodoroTimer.toggle_pause, hs],
        PomodoroTimer.tick_seq_of_paused _ _ _ hp,
        by simp [PomodoroTimer.toggle_pause, hs],
        by simp [PomodoroTimer.toggle_pause, hs],
        by simp [PomodoroTimer.toggle_pause, hs]⟩
  | ShortBreak lap =>
      have hp : (PomodoroTimer.toggle_pause now t).state
          = .Paused (.ShortBreak lap) := by
        simp [PomodoroTimer.toggle_pause, hs]
      exact ⟨hp, by simp [PomodoroTimer.toggle_pause, hs],
        by simp [PomodoroTimer.toggle_pause, hs],
        PomodoroTimer.tick_seq_of_paused _ _ _ hp,
        by simp [PomodoroTimer.toggle_pause, hs],
        by simp [PomodoroTimer.toggle_pause, hs],
        by simp [PomodoroTimer.toggle_pause, hs]⟩
  | LongBreak =>
      have hp : (PomodoroTimer.toggle_pause now t).state = .Paused .LongBreak := by
        simp [PomodoroTimer.toggle_pause, hs]
      exact ⟨hp, by simp [PomodoroTimer.toggle_pause, hs],
        by simp [PomodoroTimer.toggle_pause, hs],
        PomodoroTimer.tick_seq_of_paused _ _ _ hp,
        by simp [PomodoroTimer.toggle_pause, hs],
        by simp [PomodoroTimer.toggle_pause, hs],
        by simp [PomodoroTimer.toggle_pause, hs]⟩

/-- C3 witness: a running Work timer with `remaining = 77`, paused at
instant 1, ticked at instants 3, 4, 5, resumed at instant 2. -/
theorem pause_freezes_remaining_witness :
    PomodoroTimer.tick_seq [3, 4, 5]
        (PomodoroTimer.toggle_pause 1
          { state := .Work 1, remaining := 77, cycle_position := 0,
            last_tick := some 0 }) =
      some (PomodoroTimer.toggle_pause 1
          { state := .Work 1, remaining := 77, cycle_position := 0,
            last_tick := some 0 }) ∧
    (PomodoroTimer.toggle_pause 2 (PomodoroTimer.toggle_pause 1
        { state := .Work 1, remaining := 77, cycle_position := 0,
          last_tick := some 0 })).remaining = 77 := by
  have h := pause_freezes_remaining
    { state := .Work 1, remaining := 77, cycle_position := 0, last_tick := some 0 }
    1 2 [3, 4, 5] (by decide) (fun s => by simp)
  exact ⟨h.2.2.2.1, h.2.2.2.2.2.1⟩

/-- C4: on every state reachable from `new()`, the session state machine
does not panic: reachable states never contain a nested
`Paused(Paused(_))`, `advance_state()` never takes its `unreachable!()`
branch (it returns a value for every clock reading), `tick()` always
returns a value, and `tick()` on an Idle or Paused timer is a silent
no-op returning the timer unchanged. -/
theorem state_machine_no_panic (t : PomodoroTimer)
    (h : PomodoroTimer.Reachable t) :
    PomodoroTimer.no_nested_paused t.state ∧
    (∀ now, (PomodoroTimer.advance_state now t).isSome) ∧
    (∀ now, (PomodoroTimer.tick now t).isSome) ∧
    (∀ now, t.state = .Idle ∨ (∃ s, t.state = .Paused s) →
      PomodoroTimer.tick now t = some t) := by
  obtain ⟨h1, -⟩ := PomodoroTimer.reachable_inv h
  refine ⟨h1, fun now => PomodoroTimer.advance_state_isSome now t h1,
    fun now => PomodoroTimer.tick_isSome now t, fun now hc => ?_⟩
  rcases hc with hc | ⟨s, hc⟩ <;> simp [PomodoroTimer.tick, hc]

/-- C4 witness at the initial state `new()`. -/
theorem state_machine_no_panic_witness :
    (PomodoroTimer.advance_state 5 PomodoroTimer.new).isSome ∧
    PomodoroTimer.tick 5 PomodoroTimer.new = some PomodoroTimer.new := by
  have h := state_machine_no_panic PomodoroTimer.new PomodoroTimer.Reachable.init
  exact ⟨h.2.1 5, h.2.2.2 5 (Or.inl rfl)⟩

/-- C5: on every reachable timer state, `session_progress()` equals
`1 − remaining / total(phase)` whenever the (possibly paused) phase has a
duration, lies in `[0, 1]`, and is 0 when the phase is Idle — and also 0
in every case where no duration applies (a paused base phase carrying no
duration included). -/
theorem session_progress_in_unit_interval (t : PomodoroTimer)
    (h : PomodoroTimer.Reachable t) :
    0 ≤ PomodoroTimer.session_progress t ∧
    PomodoroTimer.session_progress t ≤ 1 ∧
    (t.state = .Idle → PomodoroTimer.session_progress t = 0) ∧
    (∀ d, PomodoroTimer.phase_total t.state = some d →
      PomodoroTimer.session_progress t = 1 - (t.remaining : ℚ) / (d : ℚ)) ∧
    (PomodoroTimer.phase_total t.state = none →
      PomodoroTimer.session_progress t = 0) := by
  obtain ⟨-, h2⟩ := PomodoroTimer.reachable_inv h
  cases hp : PomodoroTimer.phase_total t.state with
  | none =>
      have h0 : PomodoroTimer.session_progress t = 0 := by
        simp [PomodoroTimer.session_progress, hp]
      refine ⟨by rw [h0], by rw [h0]; norm_num, fun _ => h0, fun d hd => ?_,
        fun _ => h0⟩
      cases hd
  | some d =>
      have hdpos : (0 : ℚ) < (d : ℚ) := by
        exact_mod_cast PomodoroTimer.phase_total_pos t.state d hp
      have hr : (t.remaining : ℚ) ≤ (d : ℚ) := by exact_mod_cast h2 d hp
      have hprog : PomodoroTimer.session_progress t
          = 1 - (t.remaining : ℚ) / (d : ℚ) := by
        simp [PomodoroTimer.session_progress, hp]
      refine ⟨?_, ?_, ?_, ?_, ?_⟩
      · rw [hprog]
        have hle : (t.remaining : ℚ) / d ≤ 1 := (div_le_one hdpos).mpr hr
        linarith
      · rw [hprog]
        have hge : (0 : ℚ) ≤ (t.remaining : ℚ) / d :=
          div_nonneg (by positivity) hdpos.le
        linarith
      · intro hi
        rw [hi] at hp
        simp [PomodoroTimer.phase_total] at hp
      · intro d2 hd2
        cases hd2
        exact hprog
      · intro hn
        cases hn

/-- C5 witness at the initial state `new()` (Idle, progress 0). -/
theorem session_progress_in_unit_interval_witness :
    0 ≤ PomodoroTimer.session_progress PomodoroTimer.new ∧
    PomodoroTimer.session_progress PomodoroTimer.new = 0 := by
  have h := session_progress_in_unit_interval PomodoroTimer.new
    PomodoroTimer.Reachable.init
  exact ⟨h.1, h.2.2.1 rfl⟩

/-- C10: `reset_current_session()` on a `Paused(base)` state with `base`
a Work, ShortBreak or LongBreak phase un-pauses the timer: the result is
the base phase kind with lap 1 (not wrapped in `Paused`), `remaining` is
that kind's full duration, and `last_tick` is re-armed to the current
instant — so the countdown resumes. -/
theorem reset_during_pause_resumes (t : PomodoroTimer) (base : TimerState)
    (now : Nat) (h : t.state = .Paused base) :
    (∀ lap, base = .Work lap →
      PomodoroTimer.reset_current_session now t =
        { t with state := .Work 1, remaining := WORK_DURATION,
                 last_tick := some now }) ∧
    (∀ lap, base = .ShortBreak lap →
      PomodoroTimer.reset_current_session now t =
        { t with state := .ShortBreak 1, remaining := SHORT_BREAK_DURATION,
                 last_tick := some now }) ∧
    (base = .LongBreak →
      PomodoroTimer.reset_current_session now t =
        { t with state := .LongBreak, remaining := LONG_BREAK_DURATION,
                 last_tick := some now }) := by
  refine ⟨fun lap hb => ?_, fun lap hb => ?_, fun hb => ?_⟩ <;> subst hb <;>
    simp [PomodoroTimer.reset_current_session, PomodoroTimer.unwrap_paused, h]

/-- C10 witness: a paused `Work{3}` timer reset at instant 7. -/
theorem reset_during_pause_resumes_witness :
    PomodoroTimer.reset_current_session 7
        { state := .Paused (.Work 3), remaining := 5, cycle_position := 2,
          last_tick := none } =
      { state := .Work 1, remaining := WORK_DURATION, cycle_position := 2,
        last_tick := some 7 } :=
  (reset_during_pause_resumes
    { state := .Paused (.Work 3), remaining := 5, cycle_position := 2,
      last_tick := none }
    (.Work 3) 7 rfl).1 3 rfl

end Pomowise
